import Mathlib

/-!
Verification of the boundless-receiver zkVM guest
(`src/zkvm/guest/src/main.rs`) against its specification.

The guest is a single-pass pipeline: it reads a state-proof bundle, a
20-byte contract address and a 32-bit log index from the input channel,
reconstructs a verified EVM view (an external `risc0_steel` collaborator,
modelled here at its specified interface boundary as an explicit
`EthEvmInput → Option EvmEnv` parameter), queries the view for all
`TransferSent` events of the given address, selects the record at the
given index, canonicalizes the address into a 32-byte universal address,
and commits the ABI encoding of the resulting `Journal` to the output
channel.  Panics of the Rust code (deserialization failure, view
reconstruction failure, out-of-range indexing, slice-length mismatch in
`copy_from_slice`) are modelled as fatal errors producing no output.

Bytes are modelled as `Fin 256`; byte strings as `List Byte`.
-/

/-- One byte. -/
abbrev Byte := Fin 256

/-- A native 20-byte chain address (`alloy_primitives::Address`). -/
def Addr20 := { l : List Byte // l.length = 20 }

instance : DecidableEq Addr20 := Subtype.instDecidableEq

/-- Keccak topic0 of `TransferSent(bytes32 indexed digest)`, the single
compiled-in event signature of the guest
(`0x3e6ae56314c6da8b461d872f41c6d0bb69317b9d0232805aaccfa45df1a16fa0`). -/
def TRANSFER_SENT_TOPIC : List Byte :=
  [0x3e, 0x6a, 0xe5, 0x63, 0x14, 0xc6, 0xda, 0x8b,
   0x46, 0x1d, 0x87, 0x2f, 0x41, 0xc6, 0xd0, 0xbb,
   0x69, 0x31, 0x7b, 0x9d, 0x02, 0x32, 0x80, 0x5a,
   0xac, 0xcf, 0xa4, 0x5d, 0xf1, 0xa1, 0x6f, 0xa0]

/-- A raw event log inside the verified view: emitting contract address,
topic0 (the event signature hash) and the 32-byte indexed `digest`
payload of a `TransferSent` emission. -/
structure RawLog where
  address : List Byte
  topic0 : List Byte
  digest : List Byte
deriving DecidableEq

/-- The `Commitment` naming the block the verified view was reconstructed
for.  Its internal layout belongs to the external `risc0_steel` library;
we keep its ABI words opaque as `enc`. -/
structure Commitment where
  enc : List Byte
deriving DecidableEq

/-- The verified execution view (`EvmEnv`): the ordered event logs of the
committed block, in on-chain emission order, together with the block
commitment.  The reconstruction guarantee of the external View
Reconstructor is modelled by this structure's fields. -/
structure EvmEnv where
  logs : List RawLog
  commitment : Commitment
deriving DecidableEq

/-- `env.into_commitment()`: the commitment of the verified view. -/
def EvmEnv.into_commitment (e : EvmEnv) : Commitment := e.commitment

/-- One decoded `TransferSent` occurrence returned by the event query:
the emitting contract's address and the 32-byte message digest. -/
structure EventRecord where
  address : List Byte
  digest : List Byte
deriving DecidableEq

/-- `Event::new::<INttManager::TransferSent>(&env).address(a).query()`:
the ordered sequence of all logs of the view matching the compiled-in
`TransferSent` signature and the contract address `a`, in emission
order (the library collaborator's contract, spec section 4.3). -/
def queryTransferSent (env : EvmEnv) (addr : List Byte) : List EventRecord :=
  (env.logs.filter fun l =>
      decide (l.topic0 = TRANSFER_SENT_TOPIC ∧ l.address = addr)).map
    fun l => { address := l.address, digest := l.digest }

/-- `dst.copy_from_slice(src)`: returns the overwritten buffer, or `none`
when the two slices differ in length (a Rust panic). -/
def copy_from_slice (dst src : List Byte) : Option (List Byte) :=
  if src.length = dst.length then some src else none

/-- `to_universal_address`: zero a 32-byte buffer, copy the address bytes
into positions 12..32, and return the buffer.  The `none` case models the
`copy_from_slice` length-mismatch panic. -/
def to_universal_address (addr : List Byte) : Option (List Byte) :=
  let addr_bytes := addr
  let padded : List Byte := List.replicate 32 0
  match copy_from_slice (padded.drop 12) addr_bytes with
  | some tail => some (padded.take 12 ++ tail)
  | none => none

lemma to_universal_address_eq (a : List Byte) (h : a.length = 20) :
    to_universal_address a = some (List.replicate 12 0 ++ a) := by
  simp [to_universal_address, copy_from_slice, h, List.take_replicate,
    List.drop_replicate]

/-- A sample 20-byte address `0xAA…AA` used by witnesses. -/
def sampleAddr : Addr20 := ⟨List.replicate 20 0xAA, by simp⟩

/-- C4: for every 20-byte native address `a`, `to_universal_address a`
succeeds with a 32-byte value whose bytes 0–11 are zero and whose bytes
12–31 equal `a`, preserving byte order. -/
theorem universal_address_layout (a : List Byte) (h : a.length = 20) :
    ∃ u, to_universal_address a = some u ∧ u.length = 32 ∧
      u.take 12 = List.replicate 12 0 ∧ u.drop 12 = a := by
  refine ⟨List.replicate 12 0 ++ a, to_universal_address_eq a h, ?_, ?_, ?_⟩
  · simp [h]
  · rw [List.take_append_of_le_length (by simp)]
    simp
  · rw [List.drop_append_of_le_length (by simp)]
    simp

/-- Witness for C4 at the concrete address `0xAA…AA`. -/
theorem universal_address_layout_witness :
    ∃ u, to_universal_address sampleAddr.val = some u ∧ u.length = 32 ∧
      u.take 12 = List.replicate 12 0 ∧ u.drop 12 = sampleAddr.val :=
  universal_address_layout sampleAddr.val sampleAddr.property

/-- C5: the address canonicalizer is injective on 20-byte addresses —
distinct addresses have distinct universal forms; the padding loses no
information. -/
theorem universal_address_injective (a₁ a₂ : List Byte)
    (h₁ : a₁.length = 20) (h₂ : a₂.length = 20) (hne : a₁ ≠ a₂) :
    to_universal_address a₁ ≠ to_universal_address a₂ := by
  rw [to_universal_address_eq a₁ h₁, to_universal_address_eq a₂ h₂]
  intro h
  apply hne
  have h' := Option.some.inj h
  have := congrArg (List.drop 12) h'
  simpa using this

/-- Witness for C5 at two concrete distinct addresses. -/
theorem universal_address_injective_witness :
    to_universal_address (List.replicate 20 (0xAA : Byte)) ≠
      to_universal_address (List.replicate 20 (0xBB : Byte)) :=
  universal_address_injective _ _ (by simp) (by simp) (by decide)

/-- C9: `to_universal_address` is total on 20-byte addresses: the inner
`copy_from_slice` always sees matching lengths (both 20 bytes), so its
length-mismatch failure branch is unreachable and the function always
returns `some`. -/
theorem universal_address_total (a : List Byte) (h : a.length = 20) :
    copy_from_slice ((List.replicate 32 (0 : Byte)).drop 12) a = some a ∧
      ∃ u, to_universal_address a = some u := by
  constructor
  · simp [copy_from_slice, h, List.drop_replicate]
  · exact ⟨_, to_universal_address_eq a h⟩

/-- Witness for C9 at the concrete address `0xAA…AA`. -/
theorem universal_address_total_witness :
    copy_from_slice ((List.replicate 32 (0 : Byte)).drop 12) sampleAddr.val
        = some sampleAddr.val ∧
      ∃ u, to_universal_address sampleAddr.val = some u :=
  universal_address_total sampleAddr.val sampleAddr.property

/-- The opaque serialized state-proof bundle (`EthEvmInput`): caller
supplied evidence consumed by the external View Reconstructor. -/
structure EthEvmInput where
  data : List Byte
deriving DecidableEq

/-- The three values the guest reads from the input channel, in order:
state-proof bundle, 20-byte contract address, unsigned 32-bit log index
(`env::read()` three times in `main`). -/
structure GuestInputs where
  bundle : EthEvmInput
  contract_addr : Addr20
  log_index : Fin (2 ^ 32)
deriving DecidableEq

/-- The fatal error taxonomy of the guest (spec section 7); each models a
Rust panic aborting the zkVM execution with no journal. -/
inductive GuestError where
  | inputDecoding
  | viewReconstruction
  | eventNotFound
  | encoding
deriving DecidableEq

/-- What an invocation leaves behind: the ordered list of blobs written
to the output channel by `env::commit_slice`, and the fatal error, if
any, that halted execution. -/
structure GuestOutcome where
  commits : List (List Byte)
  error : Option GuestError
deriving DecidableEq

/-- The journal struct committed by the guest: block commitment, message
digest of the selected `TransferSent` event, and the wormhole-encoded
(universal) address of the emitting NTT manager. -/
structure Journal where
  commitment : Commitment
  nttManagerMessageDigest : List Byte
  emitterNttManager : List Byte
deriving DecidableEq

/-- `journal.abi_encode()`: the deterministic ABI encoding of the three
fields concatenated in declaration order.  All fields are statically
sized, so the encoding is the concatenation of the per-field words. -/
def Journal.abi_encode (j : Journal) : List Byte :=
  j.commitment.enc ++ j.nttManagerMessageDigest ++ j.emitterNttManager

/-- `log_index as usize`: the guest targets the 32-bit RISC-V zkVM, so
`usize` is 32 bits wide and the cast reduces the value modulo `2 ^ 32`. -/
def usizeOfU32 (i : Fin (2 ^ 32)) : Nat := i.val % 2 ^ 32

/-- The guest `main`, shallowly embedded.  `inputs?` is the joint result
of the three `env::read()` calls (`none` models a deserialization panic);
`intoEnv` is the external View Reconstructor
(`EthEvmInput::into_env(&ETH_MAINNET_CHAIN_SPEC)`, `none` modelling its
fatal failure).  The stages run in program order: read inputs,
reconstruct the view, query and index the `TransferSent` events, build
the journal, commit its ABI encoding. -/
def runGuest (inputs? : Option GuestInputs)
    (intoEnv : EthEvmInput → Option EvmEnv) : GuestOutcome :=
  match inputs? with
  | none => { commits := [], error := some .inputDecoding }
  | some gi =>
    match intoEnv gi.bundle with
    | none => { commits := [], error := some .viewReconstruction }
    | some env =>
      match (queryTransferSent env gi.contract_addr.val).get?
          (usizeOfU32 gi.log_index) with
      | none => { commits := [], error := some .eventNotFound }
      | some log =>
        match to_universal_address gi.contract_addr.val with
        | none => { commits := [], error := some .encoding }
        | some ua =>
          let journal : Journal :=
            { commitment := env.into_commitment
              nttManagerMessageDigest := log.digest
              emitterNttManager := ua }
          { commits := [journal.abi_encode], error := none }

/-- A sample log emitted by `sampleAddr` with digest `0x01…01`. -/
def sampleLog : RawLog :=
  { address := sampleAddr.val
    topic0 := TRANSFER_SENT_TOPIC
    digest := List.replicate 32 0x01 }

/-- A sample verified view holding exactly one matching log. -/
def sampleEnv : EvmEnv :=
  { logs := [sampleLog], commitment := ⟨List.replicate 96 0x02⟩ }

/-- A sample View Reconstructor that always yields `sampleEnv`. -/
def sampleIntoEnv : EthEvmInput → Option EvmEnv := fun _ => some sampleEnv

/-- Sample guest inputs: empty bundle, `sampleAddr`, index 0. -/
def sampleInputs : GuestInputs :=
  { bundle := ⟨[]⟩
    contract_addr := sampleAddr
    log_index := ⟨0, by norm_num⟩ }

lemma usizeOfU32_eq (i : Fin (2 ^ 32)) : usizeOfU32 i = i.val :=
  Nat.mod_eq_of_lt i.isLt

lemma runGuest_some_eq (gi : GuestInputs) (intoEnv : EthEvmInput → Option EvmEnv)
    (env : EvmEnv) (henv : intoEnv gi.bundle = some env) :
    runGuest (some gi) intoEnv =
      match (queryTransferSent env gi.contract_addr.val).get? gi.log_index.val with
      | none => { commits := [], error := some .eventNotFound }
      | some log =>
          { commits := [Journal.abi_encode
              { commitment := env.into_commitment
                nttManagerMessageDigest := log.digest
                emitterNttManager := List.replicate 12 0 ++ gi.contract_addr.val }]
            error := none } := by
  simp only [runGuest, henv, usizeOfU32_eq]
  cases hq : (queryTransferSent env gi.contract_addr.val).get? gi.log_index.val with
  | none => rfl
  | some log =>
    rw [to_universal_address_eq gi.contract_addr.val gi.contract_addr.property]

lemma runGuest_shape (inputs? : Option GuestInputs)
    (intoEnv : EthEvmInput → Option EvmEnv) :
    (∃ e, runGuest inputs? intoEnv = { commits := [], error := some e })
    ∨ ∃ b, runGuest inputs? intoEnv = { commits := [b], error := none } := by
  unfold runGuest
  split
  · exact Or.inl ⟨_, rfl⟩
  · split
    · exact Or.inl ⟨_, rfl⟩
    · split
      · exact Or.inl ⟨_, rfl⟩
      · split
        · exact Or.inl ⟨_, rfl⟩
        · exact Or.inr ⟨_, rfl⟩

/-- C10: the `log_index as usize` cast is value-preserving for every one
of the `2 ^ 32` possible `u32` index values (the guest's `usize` is 32
bits wide), so the event-query lookup happens at exactly the requested
index — no truncation or wraparound. -/
theorem u32_cast_value_preserving :
    (∀ i : Fin (2 ^ 32), usizeOfU32 i = i.val)
    ∧ ∀ (env : EvmEnv) (a : List Byte) (i : Fin (2 ^ 32)),
        (queryTransferSent env a).get? (usizeOfU32 i) =
          (queryTransferSent env a).get? i.val := by
  refine ⟨usizeOfU32_eq, fun env a i => ?_⟩
  rw [usizeOfU32_eq]

/-- C6: the guest is deterministic — the outcome (journal bytes or
absence of output) is a function of the triple {bundle, address, index}
alone, so two executions on identical inputs agree bit for bit. -/
theorem guest_deterministic (intoEnv : EthEvmInput → Option EvmEnv)
    (gi₁ gi₂ : GuestInputs) (hb : gi₁.bundle = gi₂.bundle)
    (ha : gi₁.contract_addr = gi₂.contract_addr)
    (hi : gi₁.log_index = gi₂.log_index) :
    runGuest (some gi₁) intoEnv = runGuest (some gi₂) intoEnv := by
  obtain ⟨b₁, a₁, i₁⟩ := gi₁
  obtain ⟨b₂, a₂, i₂⟩ := gi₂
  dsimp at hb ha hi
  subst hb; subst ha; subst hi
  rfl

/-- Witness for C6 at the sample inputs. -/
theorem guest_deterministic_witness :
    runGuest (some sampleInputs) sampleIntoEnv =
      runGuest (some sampleInputs) sampleIntoEnv :=
  guest_deterministic sampleIntoEnv sampleInputs sampleInputs rfl rfl rfl

/-- C7: the output channel is written at most once; every error path
(input decoding, view reconstruction, index out of range) leaves it empty
— no partial, default or fallback journal — and a successful run writes
exactly one blob, at the very end. -/
theorem commit_once_or_nothing (inputs? : Option GuestInputs)
    (intoEnv : EthEvmInput → Option EvmEnv) :
    (runGuest inputs? intoEnv).commits.length ≤ 1
    ∧ ((runGuest inputs? intoEnv).error ≠ none →
        (runGuest inputs? intoEnv).commits = [])
    ∧ ((runGuest inputs? intoEnv).error = none →
        ∃ b, (runGuest inputs? intoEnv).commits = [b]) := by
  rcases runGuest_shape inputs? intoEnv with ⟨e, he⟩ | ⟨b, hb⟩
  · rw [he]
    refine ⟨by simp, fun _ => rfl, fun h => ?_⟩
    simp at h
  · rw [hb]
    exact ⟨by simp, fun h => absurd rfl h, fun _ => ⟨b, rfl⟩⟩

/-- Witness for C7: the sample run succeeds and has written one blob. -/
theorem commit_once_or_nothing_witness :
    ∃ b, (runGuest (some sampleInputs) sampleIntoEnv).commits = [b] :=
  (commit_once_or_nothing (some sampleInputs) sampleIntoEnv).2.2 (by decide)

/-- C1: with a reconstructed view in hand, an index that is in range for
the list of events matching {address, TransferSent} yields exactly the
index-th matching record (emission order), while any index at or beyond
the number of matches — including index 0 when nothing matches — halts
with the fatal `eventNotFound` error and no journal; no clamping or
wraparound. -/
theorem event_index_selection (intoEnv : EthEvmInput → Option EvmEnv)
    (gi : GuestInputs) (env : EvmEnv) (henv : intoEnv gi.bundle = some env) :
    (∀ r, (queryTransferSent env gi.contract_addr.val).get? gi.log_index.val
          = some r →
        (runGuest (some gi) intoEnv).error = none ∧
        ∃ j : Journal, (runGuest (some gi) intoEnv).commits = [j.abi_encode] ∧
          j.nttManagerMessageDigest = r.digest)
    ∧ ((queryTransferSent env gi.contract_addr.val).length ≤ gi.log_index.val →
        (runGuest (some gi) intoEnv).error = some .eventNotFound ∧
        (runGuest (some gi) intoEnv).commits = []) := by
  rw [runGuest_some_eq gi intoEnv env henv]
  constructor
  · intro r hr
    rw [hr]
    exact ⟨rfl, ⟨_, rfl, rfl⟩⟩
  · intro hk
    rw [List.get?_eq_none.mpr hk]
    exact ⟨rfl, rfl⟩

/-- Witness for C1 at the sample world: index 0 of one matching event
selects the record with digest `0x01…01`. -/
theorem event_index_selection_witness :
    (runGuest (some sampleInputs) sampleIntoEnv).error = none ∧
    ∃ j : Journal,
      (runGuest (some sampleInputs) sampleIntoEnv).commits = [j.abi_encode] ∧
      j.nttManagerMessageDigest = List.replicate 32 (0x01 : Byte) :=
  (event_index_selection sampleIntoEnv sampleInputs sampleEnv rfl).1
    { address := sampleAddr.val, digest := List.replicate 32 0x01 } (by decide)

/-- C2: whenever a journal is produced, its `commitment` field is exactly
the commitment of the view the View Reconstructor built from this
invocation's bundle — never a stale or default value. -/
theorem journal_commitment_binding (intoEnv : EthEvmInput → Option EvmEnv)
    (gi : GuestInputs) (env : EvmEnv) (henv : intoEnv gi.bundle = some env)
    (hok : (runGuest (some gi) intoEnv).error = none) :
    ∃ j : Journal, (runGuest (some gi) intoEnv).commits = [j.abi_encode] ∧
      j.commitment = env.into_commitment := by
  rw [runGuest_some_eq gi intoEnv env henv] at hok ⊢
  cases hq : (queryTransferSent env gi.contract_addr.val).get? gi.log_index.val
      with
  | none => rw [hq] at hok; simp at hok
  | some log => exact ⟨_, rfl, rfl⟩

/-- Witness for C2 at the sample world. -/
theorem journal_commitment_binding_witness :
    ∃ j : Journal,
      (runGuest (some sampleInputs) sampleIntoEnv).commits = [j.abi_encode] ∧
      j.commitment = sampleEnv.into_commitment :=
  journal_commitment_binding sampleIntoEnv sampleInputs sampleEnv rfl (by decide)

/-- C3: on success, the sole output is the ABI encoding of exactly three
fields in fixed order — block commitment, the selected event's 32-byte
content digest, and the canonicalized emitter address — concatenated. -/
theorem journal_three_field_layout (intoEnv : EthEvmInput → Option EvmEnv)
    (gi : GuestInputs)
    (hok : (runGuest (some gi) intoEnv).error = none) :
    ∃ (env : EvmEnv) (r : EventRecord) (ua : List Byte),
      intoEnv gi.bundle = some env ∧
      (queryTransferSent env gi.contract_addr.val).get? gi.log_index.val
        = some r ∧
      to_universal_address gi.contract_addr.val = some ua ∧
      (runGuest (some gi) intoEnv).commits =
        [env.into_commitment.enc ++ r.digest ++ ua] := by
  cases henv : intoEnv gi.bundle with
  | none =>
    simp only [runGuest, henv] at hok
    simp at hok
  | some env =>
    rw [runGuest_some_eq gi intoEnv env henv] at hok ⊢
    cases hq : (queryTransferSent env gi.contract_addr.val).get?
        gi.log_index.val with
    | none => rw [hq] at hok; simp at hok
    | some r =>
      exact ⟨env, r, List.replicate 12 0 ++ gi.contract_addr.val, rfl, hq,
        to_universal_address_eq gi.contract_addr.val gi.contract_addr.property,
        rfl⟩

/-- Witness for C3 at the sample world. -/
theorem journal_three_field_layout_witness :
    ∃ (env : EvmEnv) (r : EventRecord) (ua : List Byte),
      sampleIntoEnv sampleInputs.bundle = some env ∧
      (queryTransferSent env sampleInputs.contract_addr.val).get?
          sampleInputs.log_index.val = some r ∧
      to_universal_address sampleInputs.contract_addr.val = some ua ∧
      (runGuest (some sampleInputs) sampleIntoEnv).commits =
        [env.into_commitment.enc ++ r.digest ++ ua] :=
  journal_three_field_layout sampleIntoEnv sampleInputs (by decide)

/-- C8: on success, the journal's `emitterNttManager` field is the
canonicalized caller-supplied contract address echoed back (it is not
read out of the selected event record); moreover the query only ever
returns records whose emitting address is that same input address. -/
theorem emitter_is_canonicalized_input (intoEnv : EthEvmInput → Option EvmEnv)
    (gi : GuestInputs)
    (hok : (runGuest (some gi) intoEnv).error = none) :
    (∃ j : Journal,
        (runGuest (some gi) intoEnv).commits = [j.abi_encode] ∧
        j.emitterNttManager = List.replicate 12 0 ++ gi.contract_addr.val ∧
        to_universal_address gi.contract_addr.val = some j.emitterNttManager)
    ∧ ∀ (env : EvmEnv) (r : EventRecord),
        r ∈ queryTransferSent env gi.contract_addr.val →
        r.address = gi.contract_addr.val := by
  constructor
  · cases henv : intoEnv gi.bundle with
    | none =>
      simp only [runGuest, henv] at hok
      simp at hok
    | some env =>
      rw [runGuest_some_eq gi intoEnv env henv] at hok ⊢
      cases hq : (queryTransferSent env gi.contract_addr.val).get?
          gi.log_index.val with
      | none => rw [hq] at hok; simp at hok
      | some r =>
        exact ⟨_, rfl, rfl,
          to_universal_address_eq gi.contract_addr.val
            gi.contract_addr.property⟩
  · intro env r hr
    unfold queryTransferSent at hr
    simp only [List.mem_map, List.mem_filter] at hr
    obtain ⟨l, ⟨hl, hmatch⟩, rfl⟩ := hr
    exact (of_decide_eq_true hmatch).2

/-- Witness for C8 at the sample world. -/
theorem emitter_is_canonicalized_input_witness :
    (∃ j : Journal,
        (runGuest (some sampleInputs) sampleIntoEnv).commits = [j.abi_encode] ∧
        j.emitterNttManager
          = List.replicate 12 0 ++ sampleInputs.contract_addr.val ∧
        to_universal_address sampleInputs.contract_addr.val
          = some j.emitterNttManager)
    ∧ ∀ (env : EvmEnv) (r : EventRecord),
        r ∈ queryTransferSent env sampleInputs.contract_addr.val →
        r.address = sampleInputs.contract_addr.val :=
  emitter_is_canonicalized_input sampleIntoEnv sampleInputs (by decide)
